import Mathlib

/-
  Shallow embedding of the technical-analysis engine of
  src/src/openclaw_stock/analysis/technical_analysis.py.

  Pandas float columns are modelled by the type `F` below: a rational
  value, NaN, or a signed infinity.  In the source pipeline the OHLCV
  inputs are finite numbers and every arithmetic step is exact except
  divisions, which can introduce a signed infinity (x/0 with x nonzero) or NaN
  (0/0), and `Series.diff`, whose first element is NaN.  The operations
  on `F` implement the IEEE rules for exactly the cases the pipeline can
  reach; comparisons involving NaN are false, as in Python.

  The rolling standard deviation used by the Bollinger bands takes a
  real square root, which has no exact rational representative, so the
  embedding abstracts it as an explicit function argument `sq : ℚ → ℚ`
  applied to the sample variance; none of the properties proved below
  depend on the values of `sq`.
-/

/-- Extended numeric value modelling a pandas float64 cell: an exact
rational, NaN, or a signed infinity. -/
inductive F where
  | nan : F
  | inf : F
  | ninf : F
  | val : ℚ → F
deriving DecidableEq, Repr

namespace F

/-- IEEE negation. -/
def neg : F → F
  | nan => nan
  | inf => ninf
  | ninf => inf
  | val q => val (-q)

/-- IEEE addition (NaN propagates; inf + -inf = NaN). -/
def add : F → F → F
  | nan, _ => nan
  | _, nan => nan
  | inf, ninf => nan
  | inf, _ => inf
  | ninf, inf => nan
  | ninf, _ => ninf
  | val _, inf => inf
  | val _, ninf => ninf
  | val a, val b => val (a + b)

/-- IEEE subtraction. -/
def sub (x y : F) : F := add x (neg y)

/-- IEEE multiplication (inf · 0 = NaN). -/
def mul : F → F → F
  | nan, _ => nan
  | _, nan => nan
  | inf, inf => inf
  | inf, ninf => ninf
  | ninf, inf => ninf
  | ninf, ninf => inf
  | inf, val q => if 0 < q then inf else if q < 0 then ninf else nan
  | ninf, val q => if 0 < q then ninf else if q < 0 then inf else nan
  | val q, inf => if 0 < q then inf else if q < 0 then ninf else nan
  | val q, ninf => if 0 < q then ninf else if q < 0 then inf else nan
  | val a, val b => val (a * b)

/-- IEEE division (x/0 is a signed infinity for x nonzero, 0/0 is NaN,
finite/inf is 0, inf/inf is NaN). -/
def div : F → F → F
  | nan, _ => nan
  | _, nan => nan
  | inf, inf => nan
  | inf, ninf => nan
  | ninf, inf => nan
  | ninf, ninf => nan
  | inf, val q => if 0 ≤ q then inf else ninf
  | ninf, val q => if 0 ≤ q then ninf else inf
  | val _, inf => val 0
  | val _, ninf => val 0
  | val a, val b =>
      if b = 0 then (if 0 < a then inf else if a < 0 then ninf else nan)
      else val (a / b)

/-- IEEE strict less-than; any comparison with NaN is false. -/
def lt : F → F → Prop
  | nan, _ => False
  | _, nan => False
  | inf, _ => False
  | _, inf => True
  | ninf, ninf => False
  | ninf, _ => True
  | val _, ninf => False
  | val a, val b => a < b

instance : (x y : F) → Decidable (lt x y) := fun x y => by
  cases x <;> cases y <;> simp only [lt] <;> infer_instance

/-- Strict greater-than, as in Python. -/
def gt (x y : F) : Prop := lt y x

instance : (x y : F) → Decidable (gt x y) := fun x y => by
  unfold gt; infer_instance

/-- True exactly when the cell holds a finite (defined) numeric value. -/
def isVal : F → Bool
  | val _ => true
  | _ => false

end F

/-- Arithmetic mean of a list of rationals (pandas `mean` over a window). -/
def listMean (w : List ℚ) : ℚ := w.sum / (w.length : ℚ)

/-- Trailing window ending at index i holding the last `min n (i+1)` elements,
as used by `rolling(window=n, min_periods=1)`. -/
def window (l : List ℚ) (n i : ℕ) : List ℚ := (l.take (i+1)).drop (i+1-n)

/-- Embeds `series.rolling(window=n, min_periods=1).mean()`. -/
def rollingMean (l : List ℚ) (n : ℕ) : List ℚ :=
  (List.range l.length).map (fun i => listMean (window l n i))

/-- Embeds `series.rolling(window=n, min_periods=1).min()`. -/
def rollingMin (l : List ℚ) (n : ℕ) : List ℚ :=
  (List.range l.length).map (fun i => (window l n i).min?.getD 0)

/-- Embeds `series.rolling(window=n, min_periods=1).max()`. -/
def rollingMax (l : List ℚ) (n : ℕ) : List ℚ :=
  (List.range l.length).map (fun i => (window l n i).max?.getD 0)

/-- Sample variance of a window (pandas `std` squares: divide by length − 1). -/
def sampleVar (w : List ℚ) : ℚ :=
  ((w.map (fun x => (x - listMean w)^2)).sum) / ((w.length : ℚ) - 1)

/-- Embeds `series.rolling(window=n, min_periods=1).std()`: the sample standard
deviation is NaN on a single-element window, and otherwise the square root of
the sample variance, the square root being the abstracted `sq`. -/
def rollingStd (sq : ℚ → ℚ) (l : List ℚ) (n : ℕ) : List F :=
  (List.range l.length).map (fun i =>
    if (window l n i).length < 2 then F.nan else F.val (sq (sampleVar (window l n i))))

/-- Embeds `series.rolling(window=n).mean()` without `min_periods`: NaN until a
full window of n observations is available. -/
def strictRollingMean (l : List ℚ) (n : ℕ) : List F :=
  (List.range l.length).map (fun i =>
    if i + 1 < n then F.nan else F.val (listMean (window l n i)))

/-- Recursive exponentially weighted mean, current smoothed value `y` first:
emits `y`, then continues with `(1-al)·y + al·x` on the next observation. -/
def ewmGo (al : ℚ) (y : ℚ) : List ℚ → List ℚ
  | [] => [y]
  | x :: xs => y :: ewmGo al ((1 - al) * y + al * x) xs

/-- Embeds `series.ewm(..., adjust=False).mean()` with smoothing factor `al`:
seed is the first observation, then the recursive fold of `ewmGo`. -/
def ewmMean (al : ℚ) : List ℚ → List ℚ
  | [] => []
  | x :: xs => ewmGo al x xs

/-- Embeds `calculate_ma`: simple moving average with partial initial windows. -/
def calculate_ma (series : List ℚ) (period : ℕ) : List ℚ :=
  rollingMean series period

/-- Embeds `calculate_ema`: `series.ewm(span=period, adjust=False).mean()`,
whose smoothing factor is 2/(period+1). -/
def calculate_ema (series : List ℚ) (period : ℕ) : List ℚ :=
  ewmMean (2 / ((period : ℚ) + 1)) series

/-- Embeds `calculate_macd`: dif = EMA(fast) − EMA(slow), dea = EMA(dif, signal),
hist = 2·(dif − dea). -/
def calculate_macd (close : List ℚ) (fast slow signal : ℕ) :
    List ℚ × List ℚ × List ℚ :=
  let ema_fast := calculate_ema close fast
  let ema_slow := calculate_ema close slow
  let dif := List.zipWith (fun a b => a - b) ema_fast ema_slow
  let dea := calculate_ema dif signal
  let hist := List.zipWith (fun a b => 2 * (a - b)) dif dea
  (dif, dea, hist)

/-- Raw stochastic value before the replace/fillna step:
`(close − lowestLow) / (highestHigh − lowestLow) * 100` in float semantics. -/
def rsvRaw (high low close : List ℚ) (n : ℕ) : List F :=
  let lowest_low := rollingMin low n
  let highest_high := rollingMax high n
  (List.range close.length).map (fun i =>
    F.mul (F.div (F.val (close.getD i 0 - lowest_low.getD i 0))
                 (F.val (highest_high.getD i 0 - lowest_low.getD i 0)))
          (F.val 100))

/-- Embeds `rsv.replace([inf, -inf], 50).fillna(50)`: every non-finite cell
becomes 50. -/
def clean50 (x : F) : ℚ :=
  match x with
  | F.val q => q
  | _ => 50

/-- Embeds `calculate_kdj`: rsv from the trailing n-bar range with the 50
fallback, then `ewm(com=m1-1, adjust=False)` smoothing for K, the same with
`com=m2-1` for D, and J = 3K − 2D.  `ewm(com=c)` has smoothing factor
1/(1+c). -/
def calculate_kdj (high low close : List ℚ) (n m1 m2 : ℕ) :
    List ℚ × List ℚ × List ℚ :=
  let rsv := (rsvRaw high low close n).map clean50
  let k := ewmMean (1 / (1 + ((m1 : ℚ) - 1))) rsv
  let d := ewmMean (1 / (1 + ((m2 : ℚ) - 1))) k
  let j := List.zipWith (fun a b => 3 * a - 2 * b) k d
  (k, d, j)

/-- Elementwise difference `series.diff()`: NaN at index 0, exact differences
afterwards. -/
def diffList (l : List ℚ) : List F :=
  match l with
  | [] => []
  | _ :: xs => F.nan :: List.zipWith (fun b a => F.val (b - a)) xs l

/-- Embeds `delta.where(delta > 0, 0)` on a diff column: the NaN head compares
false and becomes 0; a finite delta is kept when positive, else 0.  A diff
column holds only NaN or finite cells, so the result is rational. -/
def deltaPos (d : F) : ℚ :=
  match d with
  | F.val q => if 0 < q then q else 0
  | _ => 0

/-- Embeds `-delta.where(delta < 0, 0)`: the negated negative deltas, 0
elsewhere (including the NaN head, whose comparison is false). -/
def deltaNeg (d : F) : ℚ :=
  match d with
  | F.val q => if q < 0 then -q else 0
  | _ => 0

/-- Rolling average gain of `calculate_rsi`. -/
def rsiGain (series : List ℚ) (period : ℕ) : List ℚ :=
  rollingMean ((diffList series).map deltaPos) period

/-- Rolling average loss of `calculate_rsi`. -/
def rsiLoss (series : List ℚ) (period : ℕ) : List ℚ :=
  rollingMean ((diffList series).map deltaNeg) period

/-- Embeds `calculate_rsi`: rs = gain/loss and rsi = 100 − 100/(1+rs), in
float semantics (gain/0 with positive gain is inf giving rsi 100; 0/0 is NaN
which propagates). -/
def calculate_rsi (series : List ℚ) (period : ℕ) : List F :=
  List.zipWith
    (fun g l =>
      F.sub (F.val 100)
        (F.div (F.val 100) (F.add (F.val 1) (F.div (F.val g) (F.val l)))))
    (rsiGain series period) (rsiLoss series period)

/-- Embeds `calculate_bollinger_bands`: mid = rolling mean, std = rolling
sample standard deviation (NaN at index 0), upper/lower = mid ± std·k. -/
def calculate_bollinger_bands (sq : ℚ → ℚ) (series : List ℚ)
    (period : ℕ) (std_dev : ℚ) : List F × List ℚ × List F :=
  let mid := rollingMean series period
  let std := rollingStd sq series period
  let upper := List.zipWith (fun m s => F.add (F.val m) (F.mul s (F.val std_dev))) mid std
  let lower := List.zipWith (fun m s => F.sub (F.val m) (F.mul s (F.val std_dev))) mid std
  (upper, mid, lower)

/-- Daily OHLCV bar of the input DataFrame; `openv` embeds the source column
`open` (a reserved word in Lean). -/
structure Bar where
  openv : ℚ
  high : ℚ
  low : ℚ
  close : ℚ
  volume : ℚ
deriving DecidableEq, Repr

/-- The augmented frame returned by `calculate_technical_indicators`: the
original bars plus one column per computed indicator field.  A column is
`none` exactly when its indicator group was not requested, matching an
absent DataFrame column. -/
structure AugmentedData where
  bars : List Bar
  ma5 : Option (List ℚ)
  ma10 : Option (List ℚ)
  ma20 : Option (List ℚ)
  ma60 : Option (List ℚ)
  ma120 : Option (List ℚ)
  ma250 : Option (List ℚ)
  macd_dif : Option (List ℚ)
  macd_dea : Option (List ℚ)
  macd_hist : Option (List ℚ)
  kdj_k : Option (List ℚ)
  kdj_d : Option (List ℚ)
  kdj_j : Option (List ℚ)
  rsi6 : Option (List F)
  rsi12 : Option (List F)
  rsi24 : Option (List F)
  boll_upper : Option (List F)
  boll_mid : Option (List ℚ)
  boll_lower : Option (List F)
  volume_ma5 : Option (List ℚ)
  volume_ma10 : Option (List ℚ)
  volume_ratio : Option (List F)
deriving DecidableEq, Repr

/-- The default indicator selection of `calculate_technical_indicators`. -/
def allIndicators : List String := ["ma", "macd", "kdj", "rsi", "boll", "volume"]

/-- Embeds `calculate_technical_indicators`: validates nothing beyond column
presence (a `Bar` always carries the five OHLCV fields, so the MissingField
check cannot fire in the embedding), copies the frame, and adds the columns
of each requested indicator group.  The `volume_ratio` column divides the raw
volume by its inline 5-bar rolling mean, exactly as line 237 of the source. -/
def calculate_technical_indicators (sq : ℚ → ℚ) (df : List Bar)
    (indicators0 : Option (List String)) : AugmentedData :=
  let indicators := indicators0.getD allIndicators
  let close := df.map Bar.close
  let high := df.map Bar.high
  let low := df.map Bar.low
  let volume := df.map Bar.volume
  let macd3 := calculate_macd close 12 26 9
  let kdj3 := calculate_kdj high low close 9 3 3
  let boll3 := calculate_bollinger_bands sq close 20 2
  { bars := df
    ma5 := if "ma" ∈ indicators then some (calculate_ma close 5) else none
    ma10 := if "ma" ∈ indicators then some (calculate_ma close 10) else none
    ma20 := if "ma" ∈ indicators then some (calculate_ma close 20) else none
    ma60 := if "ma" ∈ indicators then some (calculate_ma close 60) else none
    ma120 := if "ma" ∈ indicators then some (calculate_ma close 120) else none
    ma250 := if "ma" ∈ indicators then some (calculate_ma close 250) else none
    macd_dif := if "macd" ∈ indicators then some macd3.1 else none
    macd_dea := if "macd" ∈ indicators then some macd3.2.1 else none
    macd_hist := if "macd" ∈ indicators then some macd3.2.2 else none
    kdj_k := if "kdj" ∈ indicators then some kdj3.1 else none
    kdj_d := if "kdj" ∈ indicators then some kdj3.2.1 else none
    kdj_j := if "kdj" ∈ indicators then some kdj3.2.2 else none
    rsi6 := if "rsi" ∈ indicators then some (calculate_rsi close 6) else none
    rsi12 := if "rsi" ∈ indicators then some (calculate_rsi close 12) else none
    rsi24 := if "rsi" ∈ indicators then some (calculate_rsi close 24) else none
    boll_upper := if "boll" ∈ indicators then some boll3.1 else none
    boll_mid := if "boll" ∈ indicators then some boll3.2.1 else none
    boll_lower := if "boll" ∈ indicators then some boll3.2.2 else none
    volume_ma5 := if "volume" ∈ indicators then some (calculate_ma volume 5) else none
    volume_ma10 := if "volume" ∈ indicators then some (calculate_ma volume 10) else none
    volume_ratio := if "volume" ∈ indicators then
        some (List.zipWith (fun v m => F.div (F.val v) (F.val m)) volume (rollingMean volume 5))
      else none }

/-- The signal dictionary of `TechnicalAnalyzer.detect_signals`; a `none`
field is the Python `None` it is initialised with. -/
structure Signals where
  macd_signal : Option String
  kdj_signal : Option String
  rsi_signal : Option String
  ma_signal : Option String
  boll_signal : Option String
  overall : Option String
deriving DecidableEq, Repr

/-- The all-None dictionary that `detect_signals` starts from and returns
unchanged for series shorter than 20 bars. -/
def emptySignals : Signals := ⟨none, none, none, none, none, none⟩

/-- Embeds `.iloc[-1]` on a rational column; the default is unreachable at the
call sites, which only read nonempty columns. -/
def ilocLast (l : List ℚ) : ℚ := l.getLastD 0

/-- Embeds `.iloc[-2]` on a rational column. -/
def ilocPrev (l : List ℚ) : ℚ := l.dropLast.getLastD 0

/-- Embeds `.iloc[-1]` on a float column that can hold NaN. -/
def ilocLastF (l : List F) : F := l.getLastD F.nan

/-- Embeds `TechnicalAnalyzer.detect_signals`: returns the all-None dictionary
for frames of fewer than 20 rows, otherwise recomputes all indicators with the
default selection (so every column-presence guard of the source is satisfied)
and classifies the last one or two rows. -/
def detect_signals (sq : ℚ → ℚ) (df : List Bar) : Signals :=
  if df.length < 20 then emptySignals else
  let aug := calculate_technical_indicators sq df none
  let macd_signal : Option String :=
    if 2 ≤ df.length then
      let c := ilocLast (aug.macd_hist.getD [])
      let p := ilocPrev (aug.macd_hist.getD [])
      if p < 0 ∧ 0 < c then some "golden_cross"
      else if 0 < p ∧ c < 0 then some "dead_cross"
      else some "none"
    else none
  let kdj_signal : Option String :=
    if aug.kdj_k.isSome ∧ aug.kdj_d.isSome then
      let k := ilocLast (aug.kdj_k.getD [])
      let d := ilocLast (aug.kdj_d.getD [])
      if 80 < k ∧ 80 < d then some "overbought"
      else if k < 20 ∧ d < 20 then some "oversold"
      else some "none"
    else none
  let rsi_signal : Option String :=
    if aug.rsi6.isSome then
      let r := ilocLastF (aug.rsi6.getD [])
      if F.gt r (F.val 80) then some "overbought"
      else if F.lt r (F.val 20) then some "oversold"
      else some "none"
    else none
  let ma_signal : Option String :=
    if aug.ma5.isSome ∧ aug.ma20.isSome then
      let m5 := ilocLast (aug.ma5.getD [])
      let m20 := ilocLast (aug.ma20.getD [])
      let c := ilocLast (df.map Bar.close)
      if m20 < m5 ∧ m5 < c then some "bullish"
      else if m5 < m20 ∧ c < m5 then some "bearish"
      else some "neutral"
    else none
  let boll_signal : Option String :=
    if aug.boll_upper.isSome ∧ aug.boll_lower.isSome then
      let c := ilocLast (df.map Bar.close)
      let u := ilocLastF (aug.boll_upper.getD [])
      let lo := ilocLastF (aug.boll_lower.getD [])
      if F.gt (F.val c) u then some "breakout_up"
      else if F.lt (F.val c) lo then some "breakout_down"
      else some "within_band"
    else none
  let bullish_count : ℕ :=
    (if macd_signal = some "golden_cross" then 1 else 0) +
    (if kdj_signal ≠ some "overbought" then 1 else 0) +
    (if ma_signal = some "bullish" then 1 else 0) +
    (if boll_signal = some "breakout_up" then 1 else 0)
  let bearish_count : ℕ :=
    (if macd_signal = some "dead_cross" then 1 else 0) +
    (if kdj_signal = some "overbought" then 1 else 0) +
    (if ma_signal = some "bearish" then 1 else 0) +
    (if boll_signal = some "breakout_down" then 1 else 0)
  let overall : Option String :=
    if 3 ≤ bullish_count then some "strong_buy"
    else if 2 ≤ bullish_count then some "buy"
    else if 3 ≤ bearish_count then some "strong_sell"
    else if 2 ≤ bearish_count then some "sell"
    else some "neutral"
  ⟨macd_signal, kdj_signal, rsi_signal, ma_signal, boll_signal, overall⟩

/-- Error kinds of `calculate_support_resistance`: the dedicated
insufficient-data CalculationError raised before the try block, and the
generic CalculationError wrapping any exception raised inside it (the
ValueError for an unknown method, or an indexing fault). -/
inductive CalcError where
  | insufficientData : CalcError
  | computeFailure : CalcError
deriving DecidableEq, Repr

/-- Round-half-even to an integer, the rational idealization of Python's
`round`. -/
def roundHalfEven (x : ℚ) : ℤ :=
  let f := ⌊x⌋
  let r := x - (f : ℚ)
  if r < 1/2 then f
  else if 1/2 < r then f + 1
  else if f % 2 = 0 then f else f + 1

/-- Embeds `round(x, 2)` on a finite value. -/
def round2 (q : ℚ) : ℚ := ((roundHalfEven (q * 100) : ℤ) : ℚ) / 100

/-- Embeds `round(x, 2)` on a float cell: NaN and infinities round to
themselves. -/
def round2F : F → F
  | F.val q => F.val (round2 q)
  | x => x

/-- Embeds `Series.max()`: NaN on an empty column. -/
def listMaxF (l : List ℚ) : F :=
  match l.max? with
  | some m => F.val m
  | none => F.nan

/-- Embeds `Series.min()`: NaN on an empty column. -/
def listMinF (l : List ℚ) : F :=
  match l.min? with
  | some m => F.val m
  | none => F.nan

/-- The timestamp-free part of the dictionary returned by
`calculate_support_resistance`. -/
structure LevelResultCore where
  symbol : String
  current_price : ℚ
  method : String
  lookback : ℕ
  pivot_point : F
  support_levels : List F
  resistance_levels : List F
  recommendation : String
deriving DecidableEq, Repr

/-- The full result dictionary: the timestamp-free core plus the
wall-clock `timestamp` field of line 372. -/
structure LevelResult where
  core : LevelResultCore
  timestamp : String
deriving DecidableEq, Repr

/-- The four method branches of `calculate_support_resistance`, producing the
raw (unfiltered, already rounded) support and resistance lists; `none` embeds
the ValueError raised for an unknown method. -/
def srLevels (method : String) (df : List Bar) (recent : List Bar)
    (current_price : ℚ) (high low pivot : F) : Option (List F × List F) :=
  if method = "fibonacci" then
    let diff := F.sub high low
    some
      ([round2F (F.sub high (F.mul (F.val (236/1000)) diff)),
        round2F (F.sub high (F.mul (F.val (382/1000)) diff)),
        round2F (F.sub high (F.mul (F.val (1/2)) diff)),
        round2F (F.sub high (F.mul (F.val (618/1000)) diff)),
        round2F (F.sub high (F.mul (F.val (786/1000)) diff))],
       [round2F (F.add low (F.mul (F.val 1) diff)),
        round2F (F.add low (F.mul (F.val (1236/1000)) diff)),
        round2F (F.add low (F.mul (F.val (1382/1000)) diff)),
        round2F (F.add low (F.mul (F.val (3/2)) diff)),
        round2F (F.add low (F.mul (F.val (1618/1000)) diff))])
  else if method = "pivot" then
    let r1 := F.sub (F.mul (F.val 2) pivot) low
    let r2 := F.add pivot (F.sub high low)
    let r3 := F.add high (F.mul (F.val 2) (F.sub pivot low))
    let s1 := F.sub (F.mul (F.val 2) pivot) high
    let s2 := F.sub pivot (F.sub high low)
    let s3 := F.sub low (F.mul (F.val 2) (F.sub high pivot))
    some ([round2F s1, round2F s2, round2F s3], [round2F r1, round2F r2, round2F r3])
  else if method = "ma" then
    let closes := df.map Bar.close
    let m5 := ilocLastF (strictRollingMean closes 5)
    let m10 := ilocLastF (strictRollingMean closes 10)
    let m20 := ilocLastF (strictRollingMean closes 20)
    let m60 := ilocLastF (strictRollingMean closes 60)
    if F.gt (F.val current_price) m5 then
      some ([round2F m5, round2F m10, round2F m20, round2F m60], [])
    else
      some ([], [round2F m5, round2F m10, round2F m20, round2F m60])
  else if method = "historical" then
    let highs := ((recent.map Bar.high).mergeSort (fun a b => decide (b ≤ a))).take 5
    let lows := ((recent.map Bar.low).mergeSort (fun a b => decide (a ≤ b))).take 5
    some (lows.reverse.map (fun x => F.val (round2 x)),
          highs.reverse.map (fun x => F.val (round2 x)))
  else none

/-- The timestamp-free body of `calculate_support_resistance`: the
insufficient-data guard, the shared primitives (current price, window
high/low, pivot), the method dispatch, the recommendation derived from the
unfiltered levels, and the result with levels filtered to positive values. -/
def srBody (symbol : String) (df : List Bar) (method : String) (lookback : ℕ) :
    Except CalcError LevelResultCore :=
  if df.length < lookback then .error .insufficientData
  else
    match (df.map Bar.close).getLast? with
    | none => .error .computeFailure
    | some current_price =>
      let recent := df.drop (df.length - lookback)
      let high := listMaxF (recent.map Bar.high)
      let low := listMinF (recent.map Bar.low)
      let pivot := F.div (F.add (F.add high low) (F.val current_price)) (F.val 3)
      match srLevels method df recent current_price high low pivot with
      | none => .error .computeFailure
      | some (support_levels, resistance_levels) =>
        let recommendation :=
          if (if support_levels ≠ [] then
                F.lt (F.val current_price) (support_levels.getLastD F.nan) else False) then
            "价格跌破关键支撑位，建议观望或止损"
          else if (if resistance_levels ≠ [] then
                F.gt (F.val current_price) (resistance_levels.getLastD F.nan) else False) then
            "价格突破关键压力位，可能开启上涨趋势"
          else if support_levels ≠ [] ∧ F.lt (F.val current_price) (support_levels.headD F.nan) then
            "价格接近支撑位，关注反弹机会"
          else if resistance_levels ≠ [] ∧ F.gt (F.val current_price) (resistance_levels.headD F.nan) then
            "价格接近压力位，注意回调风险"
          else "价格在支撑和压力之间震荡，建议观望"
        .ok { symbol := symbol
              current_price := round2 current_price
              method := method
              lookback := lookback
              pivot_point := round2F pivot
              support_levels := support_levels.filter (fun s => decide (F.gt s (F.val 0)))
              resistance_levels := resistance_levels.filter (fun r => decide (F.gt r (F.val 0)))
              recommendation := recommendation }

/-- Embeds `calculate_support_resistance`.  The wall-clock call
`pd.Timestamp.now().isoformat()` of line 372 is modelled by the explicit
`now` argument, injected into the `timestamp` field at the very end exactly
as the source does; everything else is the timestamp-free `srBody`. -/
def calculate_support_resistance (symbol : String) (df : List Bar)
    (method : String) (lookback : ℕ) (now : String) : Except CalcError LevelResult :=
  (srBody symbol df method lookback).map (fun c => ⟨c, now⟩)

/-- Bullish tally of the aggregate rule, counted from the per-indicator
fields of a signal dictionary exactly as lines 501-506 do. -/
def bullishCountOf (s : Signals) : ℕ :=
  (if s.macd_signal = some "golden_cross" then 1 else 0) +
  (if s.kdj_signal ≠ some "overbought" then 1 else 0) +
  (if s.ma_signal = some "bullish" then 1 else 0) +
  (if s.boll_signal = some "breakout_up" then 1 else 0)

/-- Bearish tally of the aggregate rule, lines 507-512. -/
def bearishCountOf (s : Signals) : ℕ :=
  (if s.macd_signal = some "dead_cross" then 1 else 0) +
  (if s.kdj_signal = some "overbought" then 1 else 0) +
  (if s.ma_signal = some "bearish" then 1 else 0) +
  (if s.boll_signal = some "breakout_down" then 1 else 0)

/-- The bullish-first aggregate decision of lines 514-523. -/
def overallOf (bull bear : ℕ) : String :=
  if 3 ≤ bull then "strong_buy"
  else if 2 ≤ bull then "buy"
  else if 3 ≤ bear then "strong_sell"
  else if 2 ≤ bear then "sell"
  else "neutral"

/-- The 21 indicator column lengths of an augmented frame, in the order the
source adds the columns. -/
def columnLengths (a : AugmentedData) : List (Option ℕ) :=
  [a.ma5.map List.length, a.ma10.map List.length, a.ma20.map List.length,
   a.ma60.map List.length, a.ma120.map List.length, a.ma250.map List.length,
   a.macd_dif.map List.length, a.macd_dea.map List.length, a.macd_hist.map List.length,
   a.kdj_k.map List.length, a.kdj_d.map List.length, a.kdj_j.map List.length,
   a.rsi6.map List.length, a.rsi12.map List.length, a.rsi24.map List.length,
   a.boll_upper.map List.length, a.boll_mid.map List.length, a.boll_lower.map List.length,
   a.volume_ma5.map List.length, a.volume_ma10.map List.length,
   a.volume_ratio.map List.length]

lemma length_rollingMean (l : List ℚ) (n : ℕ) : (rollingMean l n).length = l.length := by
  simp [rollingMean]

lemma length_rollingMin (l : List ℚ) (n : ℕ) : (rollingMin l n).length = l.length := by
  simp [rollingMin]

lemma length_rollingMax (l : List ℚ) (n : ℕ) : (rollingMax l n).length = l.length := by
  simp [rollingMax]

lemma length_rollingStd (sq : ℚ → ℚ) (l : List ℚ) (n : ℕ) :
    (rollingStd sq l n).length = l.length := by
  simp [rollingStd]

lemma length_ewmGo (al y : ℚ) (l : List ℚ) : (ewmGo al y l).length = l.length + 1 := by
  induction l generalizing y with
  | nil => rfl
  | cons x xs ih => simp [ewmGo, ih]

lemma length_ewmMean (al : ℚ) (l : List ℚ) : (ewmMean al l).length = l.length := by
  cases l with
  | nil => rfl
  | cons x xs => simp [ewmMean, length_ewmGo]

lemma length_calculate_ema (l : List ℚ) (p : ℕ) :
    (calculate_ema l p).length = l.length := length_ewmMean _ _

lemma length_diffList (l : List ℚ) : (diffList l).length = l.length := by
  cases l with
  | nil => rfl
  | cons x xs => simp [diffList]

lemma getElem?_rollingMean (l : List ℚ) (n i : ℕ) :
    (rollingMean l n)[i]? = if i < l.length then some (listMean (window l n i)) else none := by
  by_cases h : i < l.length
  · simp [rollingMean, List.getElem?_map, List.getElem?_range, h]
  · simp [rollingMean, List.getElem?_map, List.getElem?_range, h, Nat.le_of_not_lt h]

lemma zipWith_getElem? {α β γ : Type} (f : α → β → γ) (as : List α) (bs : List β)
    (i : ℕ) (a : α) (b : β) (ha : as[i]? = some a) (hb : bs[i]? = some b) :
    (List.zipWith f as bs)[i]? = some (f a b) := by
  induction as generalizing bs i with
  | nil => simp at ha
  | cons x xs ih =>
    cases bs with
    | nil => simp at hb
    | cons y ys =>
      cases i with
      | zero => simp_all
      | succ j => simpa using ih ys j (by simpa using ha) (by simpa using hb)

lemma ewmGo_head? (al y : ℚ) (l : List ℚ) : (ewmGo al y l).head? = some y := by
  cases l <;> rfl

lemma ewmGo_getElem?_succ (l : List ℚ) (al y : ℚ) (i : ℕ) (z x : ℚ)
    (hz : (ewmGo al y l)[i]? = some z) (hx : l[i]? = some x) :
    (ewmGo al y l)[i+1]? = some ((1 - al) * z + al * x) := by
  induction l generalizing y i with
  | nil => simp at hx
  | cons a as ih =>
    cases i with
    | zero =>
      simp only [ewmGo, List.getElem?_cons_zero, Option.some.injEq] at hz hx
      subst hz; subst hx
      simp only [ewmGo, List.getElem?_cons_succ]
      rw [← List.head?_eq_getElem?]
      exact ewmGo_head? al _ as
    | succ j =>
      simp only [ewmGo, List.getElem?_cons_succ] at hz hx ⊢
      exact ih _ j hz hx

/-- C7: the computed EMA satisfies the closed-form seed-and-fold recursion with
smoothing factor 2/(period+1): its first value is the first close, and each
later value is α·close[i] + (1−α)·value[i−1]. -/
theorem C7_ema_recursion (close : List ℚ) (period : ℕ) :
    (calculate_ema close period).head? = close.head? ∧
    ∀ i y x, (calculate_ema close period)[i]? = some y → close[i+1]? = some x →
      (calculate_ema close period)[i+1]? =
        some ((2 / ((period : ℚ) + 1)) * x + (1 - 2 / ((period : ℚ) + 1)) * y) := by
  constructor
  · cases close with
    | nil => rfl
    | cons c cs => simpa [calculate_ema, ewmMean] using ewmGo_head? _ c cs
  · intro i y x hy hx
    cases close with
    | nil => simp at hx
    | cons c cs =>
      simp only [calculate_ema, ewmMean] at hy ⊢
      simp only [List.getElem?_cons_succ] at hx
      rw [ewmGo_getElem?_succ cs _ c i y x hy hx]
      congr 1
      ring

/-- Witness for C7 on the series [1, 2] with period 3 (α = 1/2). -/
theorem C7_ema_recursion_witness :
    (calculate_ema [(1 : ℚ), 2] 3).head? = ([(1 : ℚ), 2]).head? ∧
    (calculate_ema [(1 : ℚ), 2] 3)[1]? =
      some ((2 / ((3 : ℚ) + 1)) * 2 + (1 - 2 / ((3 : ℚ) + 1)) * 1) :=
  ⟨(C7_ema_recursion [(1 : ℚ), 2] 3).1,
   (C7_ema_recursion [(1 : ℚ), 2] 3).2 0 1 2
     (by norm_num [calculate_ema, ewmMean, ewmGo]) rfl⟩

/-- C6: MACD identity — dif is the difference of the fast and slow EMAs, dea
is the 9-period EMA of the dif series, and hist is exactly 2·(dif − dea) at
every index. -/
theorem C6_macd_identity (close : List ℚ) (fast slow signal : ℕ) (i : ℕ)
    (d e a b : ℚ)
    (hd : (calculate_macd close fast slow signal).1[i]? = some d)
    (he : (calculate_macd close fast slow signal).2.1[i]? = some e)
    (ha : (calculate_ema close fast)[i]? = some a)
    (hb : (calculate_ema close slow)[i]? = some b) :
    d = a - b ∧
    (calculate_macd close fast slow signal).2.1 =
      calculate_ema (calculate_macd close fast slow signal).1 signal ∧
    (calculate_macd close fast slow signal).2.2[i]? = some (2 * (d - e)) := by
  refine ⟨?_, rfl, ?_⟩
  · simp only [calculate_macd] at hd
    rw [zipWith_getElem? _ _ _ i a b ha hb] at hd
    exact (Option.some.injEq _ _).mp hd.symm
  · simp only [calculate_macd] at hd he ⊢
    exact zipWith_getElem? _ _ _ i d e hd he

/-- Witness for C6 on the series [1, 2] at index 0. -/
theorem C6_macd_identity_witness :
    (0 : ℚ) = 1 - 1 ∧
    (calculate_macd [(1 : ℚ), 2] 12 26 9).2.1 =
      calculate_ema (calculate_macd [(1 : ℚ), 2] 12 26 9).1 9 ∧
    (calculate_macd [(1 : ℚ), 2] 12 26 9).2.2[0]? = some (2 * ((0 : ℚ) - 0)) :=
  C6_macd_identity [(1 : ℚ), 2] 12 26 9 0 0 0 1 1
    (by norm_num [calculate_macd, calculate_ema, ewmMean, ewmGo])
    (by norm_num [calculate_macd, calculate_ema, ewmMean, ewmGo])
    (by norm_num [calculate_ema, ewmMean, ewmGo])
    (by norm_num [calculate_ema, ewmMean, ewmGo])
lemma srBody_insufficient (symbol : String) (df : List Bar) (method : String)
    (lookback : ℕ) :
    srBody symbol df method lookback = Except.error CalcError.insufficientData ↔
      df.length < lookback := by
  unfold srBody
  by_cases h : df.length < lookback
  · simp [h]
  · rw [if_neg h]
    cases hlast : (df.map Bar.close).getLast? with
    | none => simp [h]
    | some cp =>
      simp only []
      split
      · simp [h]
      · simp [h]

/-- C9: calculate_support_resistance fails with the insufficient-data error
exactly when the series is strictly shorter than the lookback; the guard runs
before any level is computed, and no other code path produces that error. -/
theorem C9_insufficient_data (symbol : String) (df : List Bar) (method : String)
    (lookback : ℕ) (now : String) :
    calculate_support_resistance symbol df method lookback now =
      Except.error CalcError.insufficientData ↔ df.length < lookback := by
  rw [calculate_support_resistance, ← srBody_insufficient symbol df method lookback]
  cases h : srBody symbol df method lookback with
  | error e => simp [Except.map]
  | ok c => simp [Except.map]

/-- C1 counterexample: the Level Calculator's output embeds the wall-clock
timestamp of line 372, so two invocations on the identical one-bar series and
identical method/lookback arguments, made at different times, produce
different outputs. -/
theorem C1_counterexample :
    calculate_support_resistance "000001" [⟨10, 10, 10, 10, 100⟩] "fibonacci" 1
        "2024-01-01T00:00:00" ≠
    calculate_support_resistance "000001" [⟨10, 10, 10, 10, 100⟩] "fibonacci" 1
        "2024-01-01T00:00:01" := by
  have hlev : srLevels "fibonacci" [⟨10, 10, 10, 10, 100⟩] [⟨10, 10, 10, 10, 100⟩] 10
      (F.val 10) (F.val 10) (F.val 10) =
      some ([F.val 10, F.val 10, F.val 10, F.val 10, F.val 10],
            [F.val 10, F.val 10, F.val 10, F.val 10, F.val 10]) := by
    norm_num [srLevels, round2F, round2, roundHalfEven, F.sub, F.add, F.mul, F.neg]
  have hbody : srBody "000001" [⟨10, 10, 10, 10, 100⟩] "fibonacci" 1 = .ok
      { symbol := "000001", current_price := 10, method := "fibonacci", lookback := 1,
        pivot_point := F.val 10,
        support_levels := [F.val 10, F.val 10, F.val 10, F.val 10, F.val 10],
        resistance_levels := [F.val 10, F.val 10, F.val 10, F.val 10, F.val 10],
        recommendation := "价格在支撑和压力之间震荡，建议观望" } := by
    have hp : F.div (F.add (F.add (F.val 10) (F.val 10)) (F.val 10)) (F.val 3) = F.val 10 := by
      norm_num [F.add, F.div]
    simp only [srBody, List.map, List.getLast?, List.length, List.drop,
      listMaxF, listMinF, List.max?, List.min?]
    norm_num [hlev, hp, round2F, round2, roundHalfEven, F.gt, F.lt,
      List.getLast_singleton, List.filter]
  simp only [calculate_support_resistance, hbody, Except.map]
  intro hEq
  simp only [Except.ok.injEq, LevelResult.mk.injEq] at hEq
  exact absurd hEq.2 (by decide)

/-- C1 amended: with the wall-clock timestamp field (line 372) stripped, the
Level Calculator's output is fully determined by its series, method and
lookback arguments; the Indicator Engine and Signal Detector take no
time-dependent input at all in this embedding, so their determinism is
structural. -/
theorem C1_determinism_amended (symbol : String) (df : List Bar) (method : String)
    (lookback : ℕ) (now1 now2 : String) :
    (calculate_support_resistance symbol df method lookback now1).map LevelResult.core =
    (calculate_support_resistance symbol df method lookback now2).map LevelResult.core := by
  unfold calculate_support_resistance
  cases srBody symbol df method lookback <;> rfl

lemma overall_some (bc bec : ℕ) :
    (if 3 ≤ bc then some "strong_buy"
     else if 2 ≤ bc then some "buy"
     else if 3 ≤ bec then some "strong_sell"
     else if 2 ≤ bec then some "sell"
     else some "neutral") = some (overallOf bc bec) := by
  unfold overallOf
  split_ifs <;> rfl

/-- C2 counterexample: on a 2-bar series the claim requires the per-indicator
rules of §4.2 to be applied (so macd_signal would be one of the tag strings),
but the code's short-circuit threshold is 20 bars and it returns the all-None
dictionary; on a 1-bar series the claim requires overall = the string
"neutral", but the code returns Python None. -/
theorem C2_counterexample :
    (detect_signals (fun _ => 0) [⟨10, 10, 10, 10, 100⟩, ⟨10, 10, 10, 10, 100⟩]).macd_signal
        = none ∧
    (detect_signals (fun _ => 0) [⟨10, 10, 10, 10, 100⟩]).overall ≠ some "neutral" := by
  constructor
  · norm_num [detect_signals, emptySignals]
  · norm_num [detect_signals, emptySignals]
    intro h
    exact Option.noConfusion h

/-- C2 amended: detect_signals returns the untouched all-None signal
dictionary exactly when the series has fewer than 20 bars (not 2); for series
of at least 20 bars every field is assigned by the classification rules, so
the result is never the all-None dictionary. -/
theorem C2_short_series_amended (sq : ℚ → ℚ) (df : List Bar) :
    detect_signals sq df = emptySignals ↔ df.length < 20 := by
  constructor
  · intro hEq
    by_contra h20
    have hs : (detect_signals sq df).overall =
        some (overallOf (bullishCountOf (detect_signals sq df))
                        (bearishCountOf (detect_signals sq df))) := by
      unfold detect_signals
      rw [if_neg h20]
      exact overall_some _ _
    rw [hEq] at hs
    exact Option.noConfusion hs
  · intro h
    unfold detect_signals
    rw [if_pos h]

/-- C8: for every series reaching the classification stage (at least 20 bars),
the overall field equals the bullish-first decision applied to the bullish and
bearish tallies computed from the emitted per-indicator fields, so a
simultaneously bullish and bearish dictionary resolves bullishly. -/
theorem C8_overall_rule (sq : ℚ → ℚ) (df : List Bar) (h : 20 ≤ df.length) :
    (detect_signals sq df).overall =
      some (overallOf (bullishCountOf (detect_signals sq df))
                      (bearishCountOf (detect_signals sq df))) := by
  unfold detect_signals
  rw [if_neg (by omega)]
  exact overall_some _ _

/-- Witness for C8 on a flat 20-bar series: one bullish condition holds (kdj
is not overbought), no bearish one does, and overall is neutral. -/
theorem C8_overall_rule_witness :
    (detect_signals (fun _ => 0) (List.replicate 20 ⟨10, 10, 10, 10, 100⟩)).overall =
      some (overallOf
        (bullishCountOf (detect_signals (fun _ => 0) (List.replicate 20 ⟨10, 10, 10, 10, 100⟩)))
        (bearishCountOf (detect_signals (fun _ => 0) (List.replicate 20 ⟨10, 10, 10, 10, 100⟩)))) :=
  C8_overall_rule (fun _ => 0) (List.replicate 20 ⟨10, 10, 10, 10, 100⟩) (by simp)

lemma mem_of_mem_window {x : ℚ} {l : List ℚ} {n i : ℕ} (hx : x ∈ window l n i) :
    x ∈ l :=
  (List.take_sublist (i+1) l).mem ((List.drop_sublist (i+1-n) _).mem hx)

lemma getElem_mem_window (l : List ℚ) (n i : ℕ) (hn : 1 ≤ n) (h : i < l.length) :
    l.get ⟨i, h⟩ ∈ window l n i := by
  have htake : (l.take (i+1)).length = i + 1 := by
    simp [List.length_take]
    omega
  have hj : i - (i+1-n) < (window l n i).length := by
    simp only [window, List.length_drop, htake]
    omega
  have hval : (window l n i).get ⟨i - (i+1-n), hj⟩ = l.get ⟨i, h⟩ := by
    simp only [window, List.get_eq_getElem, List.getElem_drop, List.getElem_take]
    congr 1
    omega
  rw [← hval]
  exact List.get_mem _ _ _

lemma listMean_nonneg {w : List ℚ} (h : ∀ x ∈ w, 0 ≤ x) : 0 ≤ listMean w := by
  unfold listMean
  apply div_nonneg (List.sum_nonneg h)
  exact_mod_cast Nat.zero_le _

lemma eq_zero_of_listMean_zero {w : List ℚ} {x : ℚ} (hpos : ∀ y ∈ w, 0 ≤ y)
    (hx : x ∈ w) (h0 : listMean w = 0) : x = 0 := by
  have hne : w ≠ [] := by rintro rfl; simp at hx
  have hlen : (w.length : ℚ) ≠ 0 :=
    Nat.cast_ne_zero.mpr (fun hh => hne (List.length_eq_zero.mp hh))
  have hsum : w.sum = 0 := by
    rcases div_eq_zero_iff.mp h0 with h | h
    · exact h
    · exact absurd h hlen
  obtain ⟨s, t, rfl⟩ := List.append_of_mem hx
  have hs : 0 ≤ s.sum := List.sum_nonneg (fun y hy => hpos y (by simp [hy]))
  have ht : 0 ≤ t.sum := List.sum_nonneg (fun y hy => hpos y (by simp [hy]))
  have hxpos : 0 ≤ x := hpos x hx
  have : s.sum + (x + t.sum) = 0 := by simpa using hsum
  linarith

lemma deltaPos_nonneg (d : F) : 0 ≤ deltaPos d := by
  cases d with
  | val q =>
    simp only [deltaPos]
    split
    · linarith
    · exact le_refl 0
  | nan => exact le_refl 0
  | inf => exact le_refl 0
  | ninf => exact le_refl 0

lemma deltaNeg_nonneg (d : F) : 0 ≤ deltaNeg d := by
  cases d with
  | val q =>
    simp only [deltaNeg]
    split
    · linarith
    · exact le_refl 0
  | nan => exact le_refl 0
  | inf => exact le_refl 0
  | ninf => exact le_refl 0

lemma rsiGain_nonneg (series : List ℚ) (period i : ℕ) (g : ℚ)
    (hg : (rsiGain series period)[i]? = some g) : 0 ≤ g := by
  rw [rsiGain, getElem?_rollingMean] at hg
  split at hg
  · cases hg
    exact listMean_nonneg (fun x hx => by
      obtain ⟨d, _, rfl⟩ := List.mem_map.mp (mem_of_mem_window hx)
      exact deltaPos_nonneg d)
  · cases hg

lemma rsiLoss_nonneg (series : List ℚ) (period i : ℕ) (l : ℚ)
    (hl : (rsiLoss series period)[i]? = some l) : 0 ≤ l := by
  rw [rsiLoss, getElem?_rollingMean] at hl
  split at hl
  · cases hl
    exact listMean_nonneg (fun x hx => by
      obtain ⟨d, _, rfl⟩ := List.mem_map.mp (mem_of_mem_window hx)
      exact deltaNeg_nonneg d)
  · cases hl

/-- C3 counterexample: on the flat 2-bar series [5, 5] both rolling averages
are zero at index 1 (and, because diff's first element is NaN, also at index
0), and the computed rsi is NaN — not the claimed 50, and not a value in
[0, 100] at all. -/
theorem C3_counterexample :
    calculate_rsi [(5 : ℚ), 5] 6 = [F.nan, F.nan] ∧
    F.nan ≠ F.val 50 ∧ F.isVal F.nan = false := by
  refine ⟨?_, by decide, rfl⟩
  norm_num [calculate_rsi, rsiGain, rsiLoss, rollingMean, diffList, deltaPos,
    deltaNeg, window, listMean, List.range_succ, F.div, F.add, F.sub, F.neg]

/-- C3 amended: with gain g and loss l the rolling averages at index i, the
computed rsi is exactly 100 when l = 0 and g > 0, is NaN (undefined) — not
50 — when both are 0, and otherwise is a finite value in [0, 100]. -/
theorem C3_rsi_amended (series : List ℚ) (period : ℕ) (i : ℕ) (g l : ℚ)
    (hg : (rsiGain series period)[i]? = some g)
    (hl : (rsiLoss series period)[i]? = some l) :
    (l = 0 ∧ 0 < g → (calculate_rsi series period)[i]? = some (F.val 100)) ∧
    (l = 0 ∧ g = 0 → (calculate_rsi series period)[i]? = some F.nan) ∧
    (l ≠ 0 → ∃ q, (calculate_rsi series period)[i]? = some (F.val q) ∧
      0 ≤ q ∧ q ≤ 100) := by
  have hrsi : (calculate_rsi series period)[i]? =
      some (F.sub (F.val 100)
        (F.div (F.val 100) (F.add (F.val 1) (F.div (F.val g) (F.val l))))) :=
    zipWith_getElem? _ _ _ i g l hg hl
  have hg0 : 0 ≤ g := rsiGain_nonneg series period i g hg
  have hl0 : 0 ≤ l := rsiLoss_nonneg series period i l hl
  refine ⟨?_, ?_, ?_⟩
  · rintro ⟨rfl, hgpos⟩
    rw [hrsi]
    simp [F.div, F.add, F.sub, F.neg, hgpos, not_lt.mpr hg0]
  · rintro ⟨rfl, rfl⟩
    rw [hrsi]
    simp [F.div, F.add, F.sub, F.neg]
  · intro hlne
    have hlpos : 0 < l := lt_of_le_of_ne hl0 (Ne.symm hlne)
    have hrs : 0 ≤ g / l := div_nonneg hg0 hl0
    have hden : (1 : ℚ) + g / l ≠ 0 := by positivity
    refine ⟨100 - 100 / (1 + g / l), ?_, ?_, ?_⟩
    · rw [hrsi]
      simp [F.div, F.add, F.sub, F.neg, hlne, hden, sub_eq_add_neg]
    · have : 100 / (1 + g / l) ≤ 100 := by
        apply div_le_self (by norm_num) (by linarith)
      linarith
    · have : 0 < 100 / (1 + g / l) := by positivity
      linarith

/-- Witness for C3: on the series [1, 2] with period 6 the loss average at
index 1 is 0 while the gain average is 1/2, and the rsi there is exactly
100. -/
theorem C3_rsi_amended_witness :
    (calculate_rsi [(1 : ℚ), 2] 6)[1]? = some (F.val 100) :=
  (C3_rsi_amended [(1 : ℚ), 2] 6 1 (1/2) 0
    (by norm_num [rsiGain, rollingMean, diffList, deltaPos, window, listMean,
      List.range_succ])
    (by norm_num [rsiLoss, rollingMean, diffList, deltaNeg, window, listMean,
      List.range_succ])).1 ⟨rfl, by norm_num⟩

/-- C5 counterexample: with a single bar of volume 0 the 5-bar rolling mean is
0 and volume_ratio is the float NaN of 0/0 — not the claimed 0. -/
theorem C5_counterexample :
    (calculate_technical_indicators (fun _ => 0) [⟨10, 10, 10, 10, 0⟩] none).volume_ratio
      = some [F.nan] ∧ F.nan ≠ F.val 0 := by
  refine ⟨?_, by decide⟩
  norm_num [calculate_technical_indicators, allIndicators, rollingMean, window,
    listMean, List.range_succ, F.div]

/-- C5 amended: volume_ratio divides the raw volume by its 5-bar rolling mean
with no zero guard: the quotient is the exact ratio when the mean is nonzero,
and the float NaN of 0/0 when the mean is zero (for non-negative volumes a
zero mean forces the numerator to be zero too). -/
theorem C5_volume_ratio_amended (sq : ℚ → ℚ) (df : List Bar) (i : ℕ) (v m : ℚ)
    (hvols : ∀ b ∈ df, 0 ≤ b.volume)
    (hv : (df.map Bar.volume)[i]? = some v)
    (hm : (rollingMean (df.map Bar.volume) 5)[i]? = some m) :
    ∃ vr, (calculate_technical_indicators sq df none).volume_ratio = some vr ∧
      (m ≠ 0 → vr[i]? = some (F.val (v / m))) ∧
      (m = 0 → vr[i]? = some F.nan) := by
  refine ⟨List.zipWith (fun v m => F.div (F.val v) (F.val m)) (df.map Bar.volume)
    (rollingMean (df.map Bar.volume) 5), ?_, ?_, ?_⟩
  · simp [calculate_technical_indicators, allIndicators]
  · intro hmne
    rw [zipWith_getElem? _ _ _ i v m hv hm]
    simp [F.div, hmne]
  · intro hm0
    subst hm0
    have hv0 : v = 0 := by
      rw [getElem?_rollingMean] at hm
      split at hm
      · next hilen =>
        have hvmem : (df.map Bar.volume).get ⟨i, hilen⟩ ∈ window (df.map Bar.volume) 5 i :=
          getElem_mem_window _ 5 i (by norm_num) hilen
        have hveq : (df.map Bar.volume).get ⟨i, hilen⟩ = v := by
          have := List.getElem?_eq_getElem hilen
          rw [this] at hv
          exact (Option.some.injEq _ _).mp hv
        have hnn : ∀ y ∈ window (df.map Bar.volume) 5 i, 0 ≤ y := by
          intro y hy
          obtain ⟨b, hb, rfl⟩ := List.mem_map.mp (mem_of_mem_window hy)
          exact hvols b hb
        rw [← hveq]
        exact eq_zero_of_listMean_zero hnn hvmem ((Option.some.injEq _ _).mp hm)
      · cases hm
    subst hv0
    rw [zipWith_getElem? _ _ _ i 0 0 hv hm]
    simp [F.div]

/-- Witness for C5 on a single zero-volume bar: the mean is 0 and the ratio
cell is NaN. -/
theorem C5_volume_ratio_amended_witness :
    ∃ vr, (calculate_technical_indicators (fun _ => 0) [⟨10, 10, 10, 10, 0⟩] none).volume_ratio
        = some vr ∧
      ((0 : ℚ) ≠ 0 → vr[0]? = some (F.val ((0 : ℚ) / 0))) ∧
      ((0 : ℚ) = 0 → vr[0]? = some F.nan) :=
  C5_volume_ratio_amended (fun _ => 0) [⟨10, 10, 10, 10, 0⟩] 0 0 0
    (by intro b hb; simp at hb; subst hb; norm_num)
    (by norm_num)
    (by norm_num [rollingMean, window, listMean, List.range_succ])

lemma getElem?_rollingStd (sq : ℚ → ℚ) (l : List ℚ) (n i : ℕ) :
    (rollingStd sq l n)[i]? =
      if i < l.length then
        some (if (window l n i).length < 2 then F.nan
              else F.val (sq (sampleVar (window l n i))))
      else none := by
  by_cases h : i < l.length
  · simp [rollingStd, List.getElem?_map, List.getElem?_range, h]
  · simp [rollingStd, List.getElem?_map, List.getElem?_range, h, Nat.le_of_not_lt h]

lemma length_rsvRaw (high low close : List ℚ) (n : ℕ) :
    (rsvRaw high low close n).length = close.length := by
  simp [rsvRaw]

lemma length_calculate_rsi (s : List ℚ) (p : ℕ) :
    (calculate_rsi s p).length = s.length := by
  simp [calculate_rsi, rsiGain, rsiLoss, length_rollingMean, length_diffList]

lemma window_length_of_lt (l : List ℚ) (n i : ℕ) (h : i < l.length) :
    (window l n i).length = min n (i + 1) := by
  simp only [window, List.length_drop, List.length_take]
  omega

/-- C4 counterexample: on a single-bar frame the Bollinger upper band is NaN
(the rolling sample standard deviation of one observation is undefined), so
not every bar carries a defined numeric value for every requested field. -/
theorem C4_counterexample :
    (calculate_technical_indicators (fun _ => 0) [⟨10, 10, 10, 10, 100⟩] none).boll_upper
        = some [F.nan] ∧
    F.isVal F.nan = false := by
  refine ⟨?_, rfl⟩
  norm_num [calculate_technical_indicators, allIndicators, calculate_bollinger_bands,
    rollingStd, rollingMean, window, listMean, List.range_succ, F.add, F.mul]

/-- C4 amended: the augmented frame keeps the input bars (hence length and
date order) unchanged and every one of the 21 requested columns is present
with exactly the input length; but not every cell is a defined number: on any
nonempty frame boll_upper and boll_lower are NaN at index 0 (sample standard
deviation of a single observation), as is rsi6 (both rolling averages vanish
there because diff's first element is NaN); volume_ratio is likewise NaN
where the 5-bar volume mean is 0. -/
theorem C4_augmented_series_amended (sq : ℚ → ℚ) (df : List Bar) :
    (calculate_technical_indicators sq df none).bars = df ∧
    columnLengths (calculate_technical_indicators sq df none) =
      List.replicate 21 (some df.length) ∧
    (df ≠ [] → ∃ lu, (calculate_technical_indicators sq df none).boll_upper = some lu ∧
      lu[0]? = some F.nan) ∧
    (df ≠ [] → ∃ lw, (calculate_technical_indicators sq df none).boll_lower = some lw ∧
      lw[0]? = some F.nan) ∧
    (df ≠ [] → ∃ lr, (calculate_technical_indicators sq df none).rsi6 = some lr ∧
      lr[0]? = some F.nan) := by
  refine ⟨rfl, ?_, ?_, ?_, ?_⟩
  · simp [columnLengths, calculate_technical_indicators, allIndicators,
      calculate_ma, calculate_macd, calculate_kdj, calculate_bollinger_bands,
      calculate_ema, length_rollingMean, length_ewmMean, length_rsvRaw,
      length_calculate_rsi, length_rollingStd, List.length_zipWith,
      List.replicate]
  · intro hne
    have hpos : 0 < (df.map Bar.close).length := by
      simpa using List.length_pos.mpr hne
    have hwin1 : (window (df.map Bar.close) 20 0).length < 2 := by
      rw [window_length_of_lt _ _ _ hpos]
      omega
    have hstd : (rollingStd sq (df.map Bar.close) 20)[0]? = some F.nan := by
      rw [getElem?_rollingStd, if_pos hpos, if_pos hwin1]
    have hmid : (rollingMean (df.map Bar.close) 20)[0]? =
        some (listMean (window (df.map Bar.close) 20 0)) := by
      rw [getElem?_rollingMean, if_pos hpos]
    refine ⟨List.zipWith (fun m s => F.add (F.val m) (F.mul s (F.val 2)))
      (rollingMean (df.map Bar.close) 20) (rollingStd sq (df.map Bar.close) 20), ?_, ?_⟩
    · simp [calculate_technical_indicators, allIndicators, calculate_bollinger_bands]
    · rw [zipWith_getElem? _ _ _ 0 _ _ hmid hstd]
      simp [F.add, F.mul]
  · intro hne
    have hpos : 0 < (df.map Bar.close).length := by
      simpa using List.length_pos.mpr hne
    have hwin1 : (window (df.map Bar.close) 20 0).length < 2 := by
      rw [window_length_of_lt _ _ _ hpos]
      omega
    have hstd : (rollingStd sq (df.map Bar.close) 20)[0]? = some F.nan := by
      rw [getElem?_rollingStd, if_pos hpos, if_pos hwin1]
    have hmid : (rollingMean (df.map Bar.close) 20)[0]? =
        some (listMean (window (df.map Bar.close) 20 0)) := by
      rw [getElem?_rollingMean, if_pos hpos]
    refine ⟨List.zipWith (fun m s => F.sub (F.val m) (F.mul s (F.val 2)))
      (rollingMean (df.map Bar.close) 20) (rollingStd sq (df.map Bar.close) 20), ?_, ?_⟩
    · simp [calculate_technical_indicators, allIndicators, calculate_bollinger_bands]
    · rw [zipWith_getElem? _ _ _ 0 _ _ hmid hstd]
      simp [F.sub, F.add, F.neg, F.mul]
  · intro hne
    obtain ⟨b, rest, rfl⟩ := List.exists_cons_of_ne_nil hne
    have hg : (rsiGain ((b :: rest).map Bar.close) 6)[0]? = some 0 := by
      cases rest with
      | nil =>
        norm_num [rsiGain, rollingMean, diffList, deltaPos, window, listMean,
          List.range_succ]
      | cons c cs =>
        rw [rsiGain, getElem?_rollingMean, if_pos (by simp [length_diffList])]
        norm_num [diffList, deltaPos, window, listMean]
    have hl : (rsiLoss ((b :: rest).map Bar.close) 6)[0]? = some 0 := by
      cases rest with
      | nil =>
        norm_num [rsiLoss, rollingMean, diffList, deltaNeg, window, listMean,
          List.range_succ]
      | cons c cs =>
        rw [rsiLoss, getElem?_rollingMean, if_pos (by simp [length_diffList])]
        norm_num [diffList, deltaNeg, window, listMean]
    refine ⟨calculate_rsi ((b :: rest).map Bar.close) 6, ?_, ?_⟩
    · simp [calculate_technical_indicators, allIndicators]
    · rw [calculate_rsi, zipWith_getElem? _ _ _ 0 _ _ hg hl]
      simp [F.div, F.add, F.sub, F.neg]

/-- Witness for C4's nonemptiness hypotheses on a single-bar frame. -/
theorem C4_augmented_series_amended_witness :
    ∃ lu, (calculate_technical_indicators (fun _ => 0) [⟨10, 10, 10, 10, 100⟩] none).boll_upper
        = some lu ∧ lu[0]? = some F.nan :=
  (C4_augmented_series_amended (fun _ => 0) [⟨10, 10, 10, 10, 100⟩]).2.2.1 (by simp)

lemma getElem?_rollingMin (l : List ℚ) (n i : ℕ) :
    (rollingMin l n)[i]? =
      if i < l.length then some ((window l n i).min?.getD 0) else none := by
  by_cases h : i < l.length
  · simp [rollingMin, List.getElem?_map, List.getElem?_range, h]
  · simp [rollingMin, List.getElem?_map, List.getElem?_range, h, Nat.le_of_not_lt h]

lemma getElem?_rollingMax (l : List ℚ) (n i : ℕ) :
    (rollingMax l n)[i]? =
      if i < l.length then some ((window l n i).max?.getD 0) else none := by
  by_cases h : i < l.length
  · simp [rollingMax, List.getElem?_map, List.getElem?_range, h]
  · simp [rollingMax, List.getElem?_map, List.getElem?_range, h, Nat.le_of_not_lt h]

lemma getD_rollingMin (l : List ℚ) (n i : ℕ) (h : i < l.length) :
    (rollingMin l n).getD i 0 = (window l n i).min?.getD 0 := by
  rw [List.getD_eq_getElem?_getD, getElem?_rollingMin, if_pos h]
  rfl

lemma getD_rollingMax (l : List ℚ) (n i : ℕ) (h : i < l.length) :
    (rollingMax l n).getD i 0 = (window l n i).max?.getD 0 := by
  rw [List.getD_eq_getElem?_getD, getElem?_rollingMax, if_pos h]
  rfl

lemma getD_of_lt (l : List ℚ) (i : ℕ) (h : i < l.length) :
    l.getD i 0 = l.get ⟨i, h⟩ := by
  rw [List.getD_eq_getElem?_getD, List.getElem?_eq_getElem h]
  rfl

lemma q_min?_spec {xs : List ℚ} {a : ℚ} (h : xs.min? = some a) :
    a ∈ xs ∧ ∀ b ∈ xs, a ≤ b := by
  haveI : Std.Antisymm ((· : ℚ) ≤ ·) := ⟨fun h1 h2 => le_antisymm h1 h2⟩
  exact (List.min?_eq_some_iff (fun x => le_refl x) (fun x y => min_choice x y)
    (fun x y z => le_min_iff)).mp h

lemma q_max?_spec {xs : List ℚ} {a : ℚ} (h : xs.max? = some a) :
    a ∈ xs ∧ ∀ b ∈ xs, b ≤ a := by
  haveI : Std.Antisymm ((· : ℚ) ≤ ·) := ⟨fun h1 h2 => le_antisymm h1 h2⟩
  exact (List.max?_eq_some_iff (fun x => le_refl x) (fun x y => max_choice x y)
    (fun x y z => max_le_iff)).mp h

/-- Under the per-bar sanity condition low ≤ close ≤ high, every cleaned rsv
value lies in [0, 100]: the rolling window contains the current bar, so the
close sits between the window extremes; a flat window gives the NaN-or-inf
cell that the replace/fillna step maps to 50. -/
lemma rsv_mem_bounds (df : List Bar) (n : ℕ) (hn : 1 ≤ n)
    (hok : ∀ b ∈ df, b.low ≤ b.close ∧ b.close ≤ b.high) :
    ∀ x ∈ (rsvRaw (df.map Bar.high) (df.map Bar.low) (df.map Bar.close) n).map clean50,
      0 ≤ x ∧ x ≤ 100 := by
  intro x hx
  obtain ⟨y, hy, rfl⟩ := List.mem_map.mp hx
  simp only [rsvRaw, List.mem_map, List.mem_range] at hy
  obtain ⟨i, hi, rfl⟩ := hy
  have hid : i < df.length := by simpa using hi
  have hlenl : i < (df.map Bar.low).length := by simpa using hid
  have hlenh : i < (df.map Bar.high).length := by simpa using hid
  rw [getD_of_lt _ _ hi, getD_rollingMin _ _ _ hlenl, getD_rollingMax _ _ _ hlenh]
  have hwl : 1 ≤ (window (df.map Bar.low) n i).length := by
    rw [window_length_of_lt _ _ _ hlenl]
    omega
  have hwh : 1 ≤ (window (df.map Bar.high) n i).length := by
    rw [window_length_of_lt _ _ _ hlenh]
    omega
  cases hmin : (window (df.map Bar.low) n i).min? with
  | none =>
    rw [List.min?_eq_none_iff] at hmin
    rw [hmin] at hwl
    simp at hwl
  | some m =>
  cases hmax : (window (df.map Bar.high) n i).max? with
  | none =>
    rw [List.max?_eq_none_iff] at hmax
    rw [hmax] at hwh
    simp at hwh
  | some M =>
  simp only [Option.getD_some]
  have hbar := hok (df.get ⟨i, hid⟩) (List.get_mem df i hid)
  have hm_le : m ≤ (df.get ⟨i, hid⟩).low := by
    have := (q_min?_spec hmin).2 _ (getElem_mem_window (df.map Bar.low) n i hn hlenl)
    simpa [List.get_eq_getElem, List.getElem_map] using this
  have hM_ge : (df.get ⟨i, hid⟩).high ≤ M := by
    have := (q_max?_spec hmax).2 _ (getElem_mem_window (df.map Bar.high) n i hn hlenh)
    simpa [List.get_eq_getElem, List.getElem_map] using this
  have hcval : (df.map Bar.close).get ⟨i, hi⟩ = (df.get ⟨i, hid⟩).close := by
    simp [List.get_eq_getElem, List.getElem_map]
  rw [hcval]
  set c := (df.get ⟨i, hid⟩).close with hc
  have hcm : 0 ≤ c - m := by
    have := hbar.1
    linarith
  have hcM : c ≤ M := by
    have := hbar.2
    linarith
  by_cases hd : M - m = 0
  · have hnum : c - m = 0 := le_antisymm (by linarith) hcm
    rw [hnum, hd]
    norm_num [F.div, F.mul, clean50]
  · have hdpos : 0 < M - m := lt_of_le_of_ne (by linarith) (Ne.symm hd)
    simp only [F.div, if_neg hd, F.mul, clean50]
    have hq0 : 0 ≤ (c - m) / (M - m) := div_nonneg hcm (le_of_lt hdpos)
    have hq1 : (c - m) / (M - m) ≤ 1 := (div_le_one hdpos).mpr (by linarith)
    constructor
    · positivity
    · nlinarith

/-- A convex exponential smoothing step keeps values inside any interval
containing the seed and the observations. -/
lemma ewmGo_bounds (al a b : ℚ) (hal0 : 0 ≤ al) (hal1 : al ≤ 1) :
    ∀ (l : List ℚ) (y : ℚ), a ≤ y → y ≤ b → (∀ x ∈ l, a ≤ x ∧ x ≤ b) →
      ∀ z ∈ ewmGo al y l, a ≤ z ∧ z ≤ b := by
  intro l
  induction l with
  | nil =>
    intro y hy1 hy2 _ z hz
    simp only [ewmGo, List.mem_singleton] at hz
    subst hz
    exact ⟨hy1, hy2⟩
  | cons x xs ih =>
    intro y hy1 hy2 hl z hz
    simp only [ewmGo, List.mem_cons] at hz
    rcases hz with rfl | hz
    · exact ⟨hy1, hy2⟩
    · have hx := hl x (by simp)
      have h1 : 0 ≤ (1 - al) * (y - a) := mul_nonneg (by linarith) (by linarith)
      have h2 : 0 ≤ al * (x - a) := mul_nonneg hal0 (by linarith)
      have h3 : 0 ≤ (1 - al) * (b - y) := mul_nonneg (by linarith) (by linarith)
      have h4 : 0 ≤ al * (b - x) := mul_nonneg hal0 (by linarith)
      exact ih ((1 - al) * y + al * x) (by nlinarith) (by nlinarith)
        (fun u hu => hl u (by simp [hu])) z hz

lemma ewmMean_bounds (al a b : ℚ) (hal0 : 0 ≤ al) (hal1 : al ≤ 1) (l : List ℚ)
    (hl : ∀ x ∈ l, a ≤ x ∧ x ≤ b) : ∀ z ∈ ewmMean al l, a ≤ z ∧ z ≤ b := by
  cases l with
  | nil => intro z hz; simp [ewmMean] at hz
  | cons x xs =>
    have hx := hl x (by simp)
    exact ewmGo_bounds al a b hal0 hal1 xs x hx.1 hx.2
      (fun u hu => hl u (by simp [hu]))

/-- C10: for every input series whose bars satisfy low ≤ close ≤ high, the
computed K and D values lie in [0, 100] at every index: rsv is in [0, 100]
by construction (the current bar belongs to its own trailing window, and the
flat-range fallback is 50), and the two exponential smoothings are convex
combinations that preserve the bounds. -/
theorem C10_kdj_bounds (df : List Bar)
    (hok : ∀ b ∈ df, b.low ≤ b.close ∧ b.close ≤ b.high) :
    (∀ x ∈ (calculate_kdj (df.map Bar.high) (df.map Bar.low) (df.map Bar.close) 9 3 3).1,
       0 ≤ x ∧ x ≤ 100) ∧
    (∀ x ∈ (calculate_kdj (df.map Bar.high) (df.map Bar.low) (df.map Bar.close) 9 3 3).2.1,
       0 ≤ x ∧ x ≤ 100) := by
  have hrsv := rsv_mem_bounds df 9 (by norm_num) hok
  have hal0 : (0 : ℚ) ≤ 1 / (1 + ((3 : ℚ) - 1)) := by norm_num
  have hal1 : 1 / (1 + ((3 : ℚ) - 1)) ≤ 1 := by norm_num
  have hk : ∀ z ∈ ewmMean (1 / (1 + ((3 : ℚ) - 1)))
      ((rsvRaw (df.map Bar.high) (df.map Bar.low) (df.map Bar.close) 9).map clean50),
      0 ≤ z ∧ z ≤ 100 :=
    ewmMean_bounds _ 0 100 hal0 hal1 _ hrsv
  exact ⟨hk, ewmMean_bounds _ 0 100 hal0 hal1 _ hk⟩

/-- Witness for C10 on a 2-bar series with low ≤ close ≤ high. -/
theorem C10_kdj_bounds_witness :
    (∀ x ∈ (calculate_kdj ([⟨10, 12, 9, 10, 100⟩, ⟨10, 13, 9, 11, 100⟩].map Bar.high)
        ([⟨10, 12, 9, 10, 100⟩, ⟨10, 13, 9, 11, 100⟩].map Bar.low)
        ([⟨10, 12, 9, 10, 100⟩, ⟨10, 13, 9, 11, 100⟩].map Bar.close) 9 3 3).1,
       0 ≤ x ∧ x ≤ 100) ∧
    (∀ x ∈ (calculate_kdj ([⟨10, 12, 9, 10, 100⟩, ⟨10, 13, 9, 11, 100⟩].map Bar.high)
        ([⟨10, 12, 9, 10, 100⟩, ⟨10, 13, 9, 11, 100⟩].map Bar.low)
        ([⟨10, 12, 9, 10, 100⟩, ⟨10, 13, 9, 11, 100⟩].map Bar.close) 9 3 3).2.1,
       0 ≤ x ∧ x ≤ 100) :=
  C10_kdj_bounds [⟨10, 12, 9, 10, 100⟩, ⟨10, 13, 9, 11, 100⟩]
    (by
      intro b hb
      simp only [List.mem_cons, List.not_mem_nil, or_false] at hb
      rcases hb with rfl | rfl <;> norm_num)
